import Mathlib

/-!
Verification development for the resampling + pivot-level engine of the
stock-market-analysis backend (`app/utils/technical_analysis.py`, with the
surrounding endpoint `app/api/endpoints/analysis.py`).

Modelling conventions (shallow embedding):
* Prices are exact rationals (`ℚ`).  The Python code works with IEEE floats;
  the float-only phenomena (infinity and NaN, which the code's post-pass at
  `technical_analysis.py` lines 134-140 converts to missing values) have no
  representative in `ℚ`, so a level is simply `Option ℚ`: `none` is
  pandas `NA`/`None`, and every `some` value is a finite number.
* A pandas cell that may be missing or non-numeric is `Option ℚ`
  (`pd.to_numeric(errors := coerce)` is the identity on this type;
  `fillna 0` is `Option.getD 0`).
* A DataFrame is a list of typed rows.  The `Date` column is carried
  separately (`Frame.dates`): `none` models a frame with no `Date` column,
  in which case `data_resampling` line 25 installs a dummy index
  `pd.date_range(start := today, ...)` - the ambient current date is the
  explicit `now` parameter.  In-place mutation of the caller's frame
  (lines 21 and 25 of the source) is modelled by state passing:
  `data_resampling` returns the frame as the callee left it, next to its
  result.  Index labels are assumed unique (the BarSeries invariant of
  strictly increasing timestamps), so label-based `.loc` writes are
  positional in the model.
* Timestamps are proleptic-Gregorian calendar dates; the pandas offset
  aliases D / W (week ending Sunday) / M (month end) / Q (quarter end,
  December cycle) / Y (year end) with `closed=right, label=right` are
  modelled by the bucket functions below, and the fact that
  `DataFrame.resample` emits one output row for EVERY bin between the bin
  of the earliest and that of the latest timestamp (empty bins included,
  aggregated to missing values) is modelled by `binLabels`.
-/

namespace StockTA

/-- A calendar date (proleptic Gregorian), the model of a pandas `Timestamp`
at midnight. -/
structure Date where
  year : Int
  month : Nat
  day : Nat
deriving DecidableEq

/-- One row of an OHLC DataFrame: the four price columns (possibly missing
or non-numeric, hence `Option ℚ`) and the `Symbol` column. -/
structure Row where
  Open : Option ℚ
  High : Option ℚ
  Low : Option ℚ
  Close : Option ℚ
  Symbol : Option String
deriving DecidableEq

/-- A DataFrame as handed to `data_resampling`: the `Date` column (if it
exists) and the data rows, in order. -/
structure Frame where
  dates : Option (List Date)
  rows : List Row
deriving DecidableEq

/-- One row of the resampled frame: the bin label (the right edge of the
bucket, since `label=right`) and the aggregated columns. -/
structure RBar where
  date : Date
  Open : Option ℚ
  High : Option ℚ
  Low : Option ℚ
  Close : Option ℚ
  Symbol : Option String
deriving DecidableEq

/-- Gregorian leap year. -/
def isLeap (y : Int) : Bool :=
  (y % 4 == 0 && y % 100 != 0) || y % 400 == 0

/-- Number of days of month `m` of year `y`. -/
def daysInMonth (y : Int) (m : Nat) : Nat :=
  if m = 2 then (if isLeap y then 29 else 28)
  else if m = 4 ∨ m = 6 ∨ m = 9 ∨ m = 11 then 30
  else 31

/-- Days since 1970-01-01 (the civil-from-days correspondence; day 0 is a
Thursday, so a date is a Sunday iff `dayNumber ≡ 3 [ZMOD 7]`). -/
def dayNumber (d : Date) : Int :=
  let y : Int := if d.month ≤ 2 then d.year - 1 else d.year
  let era : Int := Int.fdiv y 400
  let yoe : Int := y - era * 400
  let mp : Int := ((d.month : Int) + 9) % 12
  let doy : Int := (153 * mp + 2) / 5 + (d.day : Int) - 1
  let doe : Int := yoe * 365 + yoe / 4 - yoe / 100 + doy
  era * 146097 + doe - 719468

/-- The next calendar day. -/
def succDay (d : Date) : Date :=
  if d.day < daysInMonth d.year d.month then ⟨d.year, d.month, d.day + 1⟩
  else if d.month < 12 then ⟨d.year, d.month + 1, 1⟩
  else ⟨d.year + 1, 1, 1⟩

/-- `d` plus `k` calendar days. -/
def addDays (d : Date) (k : Nat) : Date :=
  succDay^[k] d

/-- The last day of the month containing (`y`, `m`). -/
def monthEnd (y : Int) (m : Nat) : Date :=
  ⟨y, m, daysInMonth y m⟩

/-- The right edge (= pandas label, since `closed=right, label=right`) of
the resampling bucket of date `d` for period code `p`. -/
def bucketOf (p : String) (d : Date) : Date :=
  match p with
  | "W" => addDays d (((3 - dayNumber d) % 7).toNat)
  | "M" => monthEnd d.year d.month
  | "Q" => monthEnd d.year (3 * ((d.month + 2) / 3))
  | "Y" => ⟨d.year, 12, 31⟩
  | _ => d

/-- The label of the next bin after the bin labelled `d`, one period later. -/
def binSucc (p : String) (d : Date) : Date :=
  match p with
  | "W" => addDays d 7
  | "M" => if d.month < 12 then monthEnd d.year (d.month + 1) else monthEnd (d.year + 1) 1
  | "Q" => if d.month < 12 then monthEnd d.year (d.month + 3) else monthEnd (d.year + 1) 3
  | "Y" => ⟨d.year + 1, 12, 31⟩
  | _ => succDay d

/-- Linearised month count, for counting monthly and quarterly bins. -/
def monthIdx (d : Date) : Int :=
  12 * d.year + (d.month : Int) - 1

/-- How many bins a resampling at period `p` emits between bin label `b0`
and bin label `b1` inclusive (pandas emits every bin of the regular
frequency in this span, occupied or not). -/
def numBins (p : String) (b0 b1 : Date) : Nat :=
  match p with
  | "W" => ((dayNumber b1 - dayNumber b0) / 7).toNat + 1
  | "M" => (monthIdx b1 - monthIdx b0).toNat + 1
  | "Q" => ((monthIdx b1 - monthIdx b0) / 3).toNat + 1
  | "Y" => (b1.year - b0.year).toNat + 1
  | _ => (dayNumber b1 - dayNumber b0).toNat + 1

/-- All bin labels from `b0` to `b1`. -/
def binLabels (p : String) (b0 b1 : Date) : List Date :=
  (List.range (numBins p b0 b1)).map (fun i => (binSucc p)^[i] b0)

/-- The earlier of two dates. -/
def earlier (a b : Date) : Date :=
  if dayNumber a ≤ dayNumber b then a else b

/-- The later of two dates. -/
def later (a b : Date) : Date :=
  if dayNumber b ≤ dayNumber a then a else b

/-- Earliest date of a list (`none` on the empty list). -/
def minDate : List Date → Option Date
  | [] => none
  | d :: ds => some (ds.foldl earlier d)

/-- Latest date of a list (`none` on the empty list). -/
def maxDate : List Date → Option Date
  | [] => none
  | d :: ds => some (ds.foldl later d)

/-- Maximum of a column of optional values, skipping missing entries the
way the pandas `max` aggregation does. -/
def maxQ (xs : List (Option ℚ)) : Option ℚ :=
  xs.foldl
    (fun acc x =>
      match acc, x with
      | none, v => v
      | some a, none => some a
      | some a, some v => some (max a v))
    none

/-- Minimum of a column of optional values, skipping missing entries. -/
def minQ (xs : List (Option ℚ)) : Option ℚ :=
  xs.foldl
    (fun acc x =>
      match acc, x with
      | none, v => v
      | some a, none => some a
      | some a, some v => some (min a v))
    none

/-- The rows of `bars` falling in the bucket labelled `label`
(`bars` pairs each row with its timestamp). -/
def groupBin (p : String) (bars : List (Date × Row)) (label : Date) : List Row :=
  (bars.filter (fun b => decide (bucketOf p b.1 = label))).map Prod.snd

/-- Aggregation of one bucket, following the `logic` dict of
`data_resampling` (lines 27-33): `Open: first, High: max, Low: min,
Close: last, Symbol: first` - where the pandas named aggregations `first`
and `last` take the first (resp. last) NON-missing value of the bucket,
and `max`/`min` skip missing values.  An empty bucket aggregates to all
missing. -/
def aggBin (g : List Row) (label : Date) : RBar :=
  { date := label
    Open := g.findSome? Row.Open
    High := maxQ (g.map Row.High)
    Low := minQ (g.map Row.Low)
    Close := g.reverse.findSome? Row.Close
    Symbol := g.findSome? Row.Symbol }

/-- `df.resample(period, closed=right, label=right).apply(logic)`
(line 36 of the source): one output row per bin label between the bucket
of the earliest and the bucket of the latest timestamp. -/
def resampleCore (ds : List Date) (rows : List Row) (p : String) : List RBar :=
  let bars := ds.zip rows
  match minDate (bars.map Prod.fst), maxDate (bars.map Prod.fst) with
  | some t0, some t1 =>
      (binLabels p (bucketOf p t0) (bucketOf p t1)).map
        (fun label => aggBin (groupBin p bars label) label)
  | _, _ => []

/-- The five period codes accepted by the system
(`analysis.py` line 53). -/
def valid_periods : List String := ["D", "W", "M", "Q", "Y"]

/-- The dummy index `pd.date_range(start := today, periods := n)` that
`data_resampling` line 25 installs when the frame has no `Date` column:
`n` consecutive days starting at the CURRENT date. -/
def dummyDates (now : Date) (n : Nat) : List Date :=
  (List.range n).map (fun i => addDays now i)

/-- `data_resampling(df, period)` (`technical_analysis.py` lines 4-38).
The returned `Frame` is the state of the CALLER's frame after the call:
when the input has no `Date` column the function mutates it in place
(line 25 assigns the dummy index to the caller's object).  A period code
pandas does not recognise raises (ValueError), modelled as
`Except.error "InvalidPeriod"`. -/
def data_resampling (now : Date) (df : Frame) (period : String) :
    Except String (Frame × List RBar) :=
  let df2 : Frame :=
    match df.dates with
    | some _ => df
    | none => ⟨some (dummyDates now df.rows.length), df.rows⟩
  let ds := df2.dates.getD []
  if period ∈ valid_periods then
    .ok (df2, resampleCore ds df2.rows period)
  else
    .error "InvalidPeriod"

/-- A row of the working table `T` of `calculate_levels` after
`pd.to_numeric` + `fillna 0` (lines 57-68): the OHLC columns are plain
numbers (missing entries became 0), the `Symbol` column is filled from
the first row's symbol. -/
structure CRow where
  Open : ℚ
  High : ℚ
  Low : ℚ
  Close : ℚ
  Symbol : Option String
deriving DecidableEq

/-- The nine level columns, in the order of the `levels` list of the
source (line 53). -/
structure Levels where
  PP : Option ℚ
  S3 : Option ℚ
  S4 : Option ℚ
  S5 : Option ℚ
  S6 : Option ℚ
  R3 : Option ℚ
  R4 : Option ℚ
  R5 : Option ℚ
  R6 : Option ℚ
deriving DecidableEq

/-- One output row of `calculate_levels`: the (coerced) data columns plus
the nine level columns. -/
structure LRow where
  row : CRow
  levels : Levels
deriving DecidableEq

/-- All nine levels missing (`pd.NA`), the initial state of the level
columns (lines 53-55). -/
def noLevels : Levels :=
  ⟨none, none, none, none, none, none, none, none, none⟩

/-- Lines 57-68: OHLC coerced to numbers with missing values filled by 0,
`Symbol` filled by the first row's symbol. -/
def coerceRow (fill : Option String) (r : Row) : CRow :=
  { Open := r.Open.getD 0
    High := r.High.getD 0
    Low := r.Low.getD 0
    Close := r.Close.getD 0
    Symbol :=
      match r.Symbol with
      | some s => some s
      | none => fill }

/-- The guard of the main loop (line 79): levels are computed unless
`H <= 0 or L <= 0 or C <= 0`. -/
def validPrev (r : CRow) : Bool :=
  !(decide (r.High ≤ 0) || decide (r.Low ≤ 0) || decide (r.Close ≤ 0))

/-- The guard of the special last-row pass (line 116):
`H > 0 and L > 0 and C > 0`. -/
def validPrevLast (r : CRow) : Bool :=
  decide (0 < r.High) && decide (0 < r.Low) && decide (0 < r.Close)

/-- The nine levels computed from the previous bar `r` (lines 82-99),
in the order the source computes them. -/
def levelsFrom (r : CRow) : Levels :=
  let C := r.Close
  let L := r.Low
  let H := r.High
  let RANGE := H - L
  let R3 := C + RANGE * (1.1 : ℚ) / 4
  let R4 := C + RANGE * (1.1 : ℚ) / 2
  let R6 := H / L * C
  let R5 := R4 + (1.168 : ℚ) * (R4 - R3)
  let PP := (H + L + C) / 3
  let S3 := C - RANGE * (1.1 : ℚ) / 4
  let S4 := C - RANGE * (1.1 : ℚ) / 2
  let S5 := S4 - (1.168 : ℚ) * (S3 - S4)
  let S6 := 2 * C - R6
  ⟨some PP, some S3, some S4, some S5, some S6, some R3, some R4, some R5, some R6⟩

/-- What the main loop (lines 71-99, `for x in range(len(T)-1)` writing
position `x+1`) leaves in the level columns of position `i`: position 0 is
never written; position `i ≥ 1` receives the levels of row `i-1` when that
row passes the guard, and stays missing otherwise. -/
def mainLevels (rows : List CRow) (i : Nat) : Levels :=
  if i = 0 then noLevels
  else
    match rows[i - 1]? with
    | some prev => if validPrev prev then levelsFrom prev else noLevels
    | none => noLevels

/-- Fallback row (never used at an in-bounds index). -/
def defaultCRow : CRow := ⟨0, 0, 0, 0, none⟩

/-- The table after the main loop. -/
def mainPass (rows : List CRow) : List LRow :=
  (List.range rows.length).map
    (fun i => ⟨rows.getD i defaultCRow, mainLevels rows i⟩)

/-- `all(pd.isna(T.iloc[-1][level]) for level in levels)` (line 104). -/
def allLevelsNone (lv : Levels) : Bool :=
  lv.PP.isNone && lv.S3.isNone && lv.S4.isNone && lv.S5.isNone && lv.S6.isNone &&
    lv.R3.isNone && lv.R4.isNone && lv.R5.isNone && lv.R6.isNone

/-- Fallback output row (never used at an in-bounds index). -/
def defaultLRow : LRow := ⟨defaultCRow, noLevels⟩

/-- The special handling of the last row (lines 101-132): if the table has
more than one row and the last row's nine levels are all missing, recompute
them from the previous row's (coerced) OHLC, guarded by
`H > 0 and L > 0 and C > 0`. -/
def specialLastPass (out : List LRow) : List LRow :=
  if 1 < out.length then
    let lastRow := out.getD (out.length - 1) defaultLRow
    if allLevelsNone lastRow.levels then
      let prev := (out.getD (out.length - 2) defaultLRow).row
      if validPrevLast prev then
        out.set (out.length - 1) ⟨lastRow.row, levelsFrom prev⟩
      else out
    else out
  else out

/-- `calculate_levels(df)` (lines 40-142).  On a frame with rows the
function copies the input (line 50), coerces and fills the columns, runs
the main loop, the special last-row pass, and the NA/inf post-pass (the
identity on `Option ℚ`: in exact rationals no level is infinite or NaN).
On an EMPTY frame the fill value `T[Symbol].iloc[0]` of line 67 is
evaluated on a frame with no rows and raises `IndexError`. -/
def calculate_levels (df : List Row) : Except String (List LRow) :=
  match df with
  | [] => .error "IndexError: single positional indexer is out-of-bounds"
  | r0 :: rest =>
    let fill := r0.Symbol
    let rows := (r0 :: rest).map (coerceRow fill)
    .ok (specialLastPass (mainPass rows))

/-- `calculate_levels` with the special last-row pass (lines 101-132)
removed, the comparison point for the refinement claim. -/
def calculate_levels_no_last_pass (df : List Row) : Except String (List LRow) :=
  match df with
  | [] => .error "IndexError: single positional indexer is out-of-bounds"
  | r0 :: rest =>
    let fill := r0.Symbol
    let rows := (r0 :: rest).map (coerceRow fill)
    .ok (mainPass rows)

/-- The row data a resampled bar contributes to `calculate_levels`
(the endpoint converts the resampled frame straight into the level
calculation at `analysis.py` line 67). -/
def RBar.toRow (b : RBar) : Row :=
  ⟨b.Open, b.High, b.Low, b.Close, b.Symbol⟩

/-- The long period names of `analysis.py` line 53. -/
def periodName (p : String) : String :=
  match p with
  | "D" => "Daily"
  | "W" => "Weekly"
  | "M" => "Monthly"
  | "Q" => "Quarterly"
  | "Y" => "Yearly"
  | _ => ""

/-- The response body of the technical-analysis endpoint. -/
structure AnalysisResponse where
  symbol : String
  period : String
  analysis : List (Date × LRow)
deriving DecidableEq

/-- The body of the `try` block of `get_technical_analysis`
(`analysis.py` lines 36-83), given the already-fetched stock data `df`:
a missing result set raises `HTTPException(404, ...)`, an unknown period
code raises `HTTPException(400, ...)` (line 56), both modelled as the
string `str(e)` produced by the exception; otherwise the data is
resampled, levelled, and formatted. -/
def get_technical_analysis_inner (now : Date) (symbol : String) (df : Frame)
    (period : String) : Except String AnalysisResponse :=
  if df.rows.isEmpty then
    .error ("404: No data found for symbol " ++ symbol ++ " in the specified date range")
  else if period ∈ valid_periods then
    match data_resampling now df period with
    | .ok (_, res) =>
      match calculate_levels (res.map RBar.toRow) with
      | .ok out => .ok ⟨symbol, periodName period, (res.map RBar.date).zip out⟩
      | .error e => .error e
    | .error e => .error e
  else
    .error ("400: Invalid period. Must be one of: D, W, M, Q, Y")

/-- `get_technical_analysis` as the caller sees it: the blanket
`except Exception` of lines 85-90 catches EVERY exception raised in the
`try` block - including the endpoint's own `HTTPException(400)` and
`HTTPException(404)` - and re-raises `HTTPException(503,
"Analysis failed: " + str(e))`. -/
def get_technical_analysis (now : Date) (symbol : String) (df : Frame)
    (period : String) : Except (Nat × String) AnalysisResponse :=
  match get_technical_analysis_inner now symbol df period with
  | .ok r => .ok r
  | .error msg => .error (503, "Analysis failed: " ++ msg)

/-! Sample data used by the concrete theorems and witnesses below: the
two-bar series of the specification's worked example, a bar with a
non-positive Low, and a few dates. -/

/-- The first example bar: O=10, H=12, L=8, C=11. -/
def exRow0 : Row := ⟨some 10, some 12, some 8, some 11, some "ACME"⟩

/-- The second example bar: O=11, H=13, L=9, C=12. -/
def exRow1 : Row := ⟨some 11, some 13, some 9, some 12, some "ACME"⟩

/-- A degenerate bar whose Low is 0. -/
def exRowBad : Row := ⟨some 10, some 12, some 0, some 11, some "ACME"⟩

/-- 2024-01-01. -/
def jan1 : Date := ⟨2024, 1, 1⟩

/-- 2024-01-02. -/
def jan2 : Date := ⟨2024, 1, 2⟩

/-- 2024-01-03. -/
def jan3 : Date := ⟨2024, 1, 3⟩

/-- A two-bar frame whose timestamps leave a one-day gap (no bar dated
2024-01-02), exhibiting an empty daily resampling bucket. -/
def exFrameGap : Frame := ⟨some [jan1, jan3], [exRow0, exRow1]⟩

deriving instance DecidableEq for Except

/-! Helper lemmas about the level-calculator passes. -/

/-- An in-bounds `getElem?` is the `getD` value. -/
theorem getElem?_eq_some_getD {α : Type} (l : List α) (j : Nat) (d : α)
    (h : j < l.length) : l[j]? = some (l.getD j d) := by
  cases hj : l[j]? with
  | none => exact absurd (List.getElem?_eq_none_iff.mp hj) (by omega)
  | some a =>
    rw [List.getD_eq_getElem?_getD, hj]
    rfl

theorem mainPass_length (rows : List CRow) :
    (mainPass rows).length = rows.length := by
  simp [mainPass]

theorem mainPass_getElem? (rows : List CRow) (i : Nat) (h : i < rows.length) :
    (mainPass rows)[i]? = some ⟨rows.getD i defaultCRow, mainLevels rows i⟩ := by
  unfold mainPass
  rw [List.getElem?_map]
  simp [List.getElem?_range, h]

theorem allLevelsNone_levelsFrom (r : CRow) :
    allLevelsNone (levelsFrom r) = false := rfl

/-- The two guards of the source (line 79 and line 116) agree. -/
theorem validPrev_eq_validPrevLast (r : CRow) :
    validPrev r = validPrevLast r := by
  unfold validPrev validPrevLast
  by_cases h1 : r.High ≤ 0 <;> by_cases h2 : r.Low ≤ 0 <;> by_cases h3 : r.Close ≤ 0 <;>
    simp_all [not_le]

/-- Core of the refinement claim: after the main loop, the special
last-row pass never changes the table.  If the last row's levels are all
missing, the previous row failed the guard of the main loop, and the pass
re-checks the same row against the equivalent guard and does nothing. -/
theorem specialLastPass_mainPass (rows : List CRow) :
    specialLastPass (mainPass rows) = mainPass rows := by
  by_cases h : 1 < (mainPass rows).length
  case neg =>
    unfold specialLastPass
    rw [if_neg h]
  case pos =>
    have hlen : (mainPass rows).length = rows.length := mainPass_length rows
    have h2 : 1 < rows.length := hlen ▸ h
    have hi1 : rows.length - 1 < rows.length := by omega
    have hi2 : rows.length - 2 < rows.length := by omega
    have hgd1 : (mainPass rows).getD (rows.length - 1) defaultLRow
        = ⟨rows.getD (rows.length - 1) defaultCRow, mainLevels rows (rows.length - 1)⟩ := by
      rw [List.getD_eq_getElem?_getD, mainPass_getElem? rows _ hi1]
      rfl
    have hgd2 : (mainPass rows).getD (rows.length - 2) defaultLRow
        = ⟨rows.getD (rows.length - 2) defaultCRow, mainLevels rows (rows.length - 2)⟩ := by
      rw [List.getD_eq_getElem?_getD, mainPass_getElem? rows _ hi2]
      rfl
    have hml : mainLevels rows (rows.length - 1)
        = if validPrev (rows.getD (rows.length - 2) defaultCRow) then
            levelsFrom (rows.getD (rows.length - 2) defaultCRow)
          else noLevels := by
      unfold mainLevels
      rw [if_neg (by omega)]
      have e : rows.length - 1 - 1 = rows.length - 2 := by omega
      rw [e, getElem?_eq_some_getD rows _ defaultCRow hi2]
    unfold specialLastPass
    rw [if_pos h, hlen, hgd1, hgd2, hml]
    cases hv : validPrev (rows.getD (rows.length - 2) defaultCRow) with
    | true => simp [allLevelsNone_levelsFrom]
    | false =>
      simp [← validPrev_eq_validPrevLast, hv, allLevelsNone, noLevels]
      intro hcon
      rw [← List.getD_eq_getElem?_getD] at hcon
      rw [hcon] at hv
      simp at hv

/-- On any non-empty input, `calculate_levels` is the main loop applied to
the coerced rows. -/
theorem calculate_levels_cons (r0 : Row) (rest : List Row) :
    calculate_levels (r0 :: rest) =
      .ok (mainPass ((r0 :: rest).map (coerceRow r0.Symbol))) := by
  simp [calculate_levels, specialLastPass_mainPass]

/-! The claims. -/

/-- C10: the special last-row pass of `calculate_levels` (source lines
101-132) never changes the result: its guard (all nine last-row levels
missing while the previous row passes the positivity check) is
unsatisfiable after the main loop, so `calculate_levels` equals the same
function with the pass removed. -/
theorem calculate_levels_last_pass_removable (df : List Row) :
    calculate_levels df = calculate_levels_no_last_pass df := by
  cases df with
  | nil => rfl
  | cons r0 rest =>
    simp [calculate_levels, calculate_levels_no_last_pass, specialLastPass_mainPass]

/-- C3 (counterexample): on the EMPTY series, `calculate_levels` does not
return 0 entries - evaluating the `Symbol` fill value
`T[Symbol].iloc[0]` (line 67) on a frame with no rows raises
`IndexError`, so the claim "for every input series of length n it returns
exactly n entries" fails at n = 0. -/
theorem calculate_levels_empty_frame_raises :
    calculate_levels ([] : List Row) =
      .error "IndexError: single positional indexer is out-of-bounds" := rfl

/-- C3 (amended): for every NON-EMPTY input series of length n,
`calculate_levels` returns exactly n entries and entry 0 has all nine
levels undefined/missing. -/
theorem calculate_levels_length_and_first_bar (df : List Row) (h : df ≠ []) :
    ∃ out, calculate_levels df = .ok out ∧ out.length = df.length ∧
      out[0]?.map LRow.levels =
        some ⟨none, none, none, none, none, none, none, none, none⟩ := by
  cases df with
  | nil => exact absurd rfl h
  | cons r0 rest =>
    refine ⟨_, calculate_levels_cons r0 rest, ?_, ?_⟩
    · simp [mainPass_length]
    · rw [mainPass_getElem? _ 0 (by simp)]
      rfl

/-- C3 (witness): the amended statement at the one-bar series. -/
theorem calculate_levels_length_and_first_bar_witness :
    ∃ out, calculate_levels [exRow0] = .ok out ∧ out.length = [exRow0].length ∧
      out[0]?.map LRow.levels =
        some ⟨none, none, none, none, none, none, none, none, none⟩ :=
  calculate_levels_length_and_first_bar [exRow0] (by decide)

/-- C6: the worked two-bar example of the specification: bars
(O=10, H=12, L=8, C=11) then (O=11, H=13, L=9, C=12) give bar 0 with all
levels missing and bar 1 with exactly PP=31/3, R3=12.1, R4=13.2, R6=16.5,
R5=14.4848, S3=9.9, S4=8.8, S5=7.5152, S6=5.5. -/
theorem calculate_levels_worked_example :
    calculate_levels [exRow0, exRow1] =
      .ok [⟨⟨10, 12, 8, 11, some "ACME"⟩, noLevels⟩,
           ⟨⟨11, 13, 9, 12, some "ACME"⟩,
            ⟨some (31 / 3), some (99 / 10), some (44 / 5), some (4697 / 625),
             some (11 / 2), some (121 / 10), some (66 / 5), some (9053 / 625),
             some (33 / 2)⟩⟩] := by
  rw [calculate_levels_cons]
  simp [exRow0, exRow1, coerceRow, mainPass, List.range_succ, mainLevels, validPrev,
    levelsFrom, noLevels]
  norm_num

/-- C1: for every bar series and every index i > 0 whose previous bar has
H > 0, L > 0 and C > 0, `calculate_levels` attaches to position i the
levels computed exactly from bar i-1's OHLC by the formulas of section
4.2 of the specification: PP = (H+L+C)/3, R3 = C + RANGE*1.1/4,
R4 = C + RANGE*1.1/2, R6 = (H/L)*C, R5 = R4 + 1.168*(R4-R3),
S3 = C - RANGE*1.1/4, S4 = C - RANGE*1.1/2, S5 = S4 - 1.168*(S3-S4),
S6 = 2*C - R6, with RANGE = H - L. -/
theorem levels_follow_prev_bar_formulas
    (df : List Row) (i : Nat) (prev : Row) (H L C : ℚ)
    (hprev : df[i - 1]? = some prev)
    (hi : 0 < i) (hlen : i < df.length)
    (hH : prev.High = some H) (hL : prev.Low = some L) (hC : prev.Close = some C)
    (hHpos : 0 < H) (hLpos : 0 < L) (hCpos : 0 < C) :
    ∃ out, calculate_levels df = .ok out ∧
      out[i]?.map LRow.levels = some
        { PP := some ((H + L + C) / 3)
          S3 := some (C - (H - L) * (1.1 : ℚ) / 4)
          S4 := some (C - (H - L) * (1.1 : ℚ) / 2)
          S5 := some (C - (H - L) * (1.1 : ℚ) / 2 -
            (1.168 : ℚ) * (C - (H - L) * (1.1 : ℚ) / 4 - (C - (H - L) * (1.1 : ℚ) / 2)))
          S6 := some (2 * C - H / L * C)
          R3 := some (C + (H - L) * (1.1 : ℚ) / 4)
          R4 := some (C + (H - L) * (1.1 : ℚ) / 2)
          R5 := some (C + (H - L) * (1.1 : ℚ) / 2 +
            (1.168 : ℚ) * (C + (H - L) * (1.1 : ℚ) / 2 - (C + (H - L) * (1.1 : ℚ) / 4)))
          R6 := some (H / L * C) } := by
  cases df with
  | nil => simp at hlen
  | cons r0 rest =>
    refine ⟨_, calculate_levels_cons r0 rest, ?_⟩
    have hi2 : i < ((r0 :: rest).map (coerceRow r0.Symbol)).length := by simpa using hlen
    rw [mainPass_getElem? _ i hi2]
    have hg : ((r0 :: rest).map (coerceRow r0.Symbol))[i - 1]? =
        some (coerceRow r0.Symbol prev) := by
      rw [List.getElem?_map, hprev]
      rfl
    have hv : validPrev (coerceRow r0.Symbol prev) = true := by
      simp [validPrev, coerceRow, hH, hL, hC, not_le, hHpos, hLpos, hCpos]
    simp only [Option.map_some']
    congr 1
    unfold mainLevels
    rw [if_neg (by omega), hg]
    simp only []
    rw [if_pos hv]
    simp [levelsFrom, coerceRow, hH, hL, hC]

/-- C1 (witness): the formula instance at the example series, i = 1. -/
theorem levels_follow_prev_bar_formulas_witness :
    ∃ out, calculate_levels [exRow0, exRow1] = .ok out ∧
      out[1]?.map LRow.levels = some
        { PP := some (((12 : ℚ) + 8 + 11) / 3)
          S3 := some ((11 : ℚ) - ((12 : ℚ) - 8) * (1.1 : ℚ) / 4)
          S4 := some ((11 : ℚ) - ((12 : ℚ) - 8) * (1.1 : ℚ) / 2)
          S5 := some ((11 : ℚ) - ((12 : ℚ) - 8) * (1.1 : ℚ) / 2 -
            (1.168 : ℚ) * ((11 : ℚ) - ((12 : ℚ) - 8) * (1.1 : ℚ) / 4 -
              ((11 : ℚ) - ((12 : ℚ) - 8) * (1.1 : ℚ) / 2)))
          S6 := some (2 * (11 : ℚ) - (12 : ℚ) / 8 * 11)
          R3 := some ((11 : ℚ) + ((12 : ℚ) - 8) * (1.1 : ℚ) / 4)
          R4 := some ((11 : ℚ) + ((12 : ℚ) - 8) * (1.1 : ℚ) / 2)
          R5 := some ((11 : ℚ) + ((12 : ℚ) - 8) * (1.1 : ℚ) / 2 +
            (1.168 : ℚ) * ((11 : ℚ) + ((12 : ℚ) - 8) * (1.1 : ℚ) / 2 -
              ((11 : ℚ) + ((12 : ℚ) - 8) * (1.1 : ℚ) / 4)))
          R6 := some ((12 : ℚ) / 8 * 11) } :=
  levels_follow_prev_bar_formulas [exRow0, exRow1] 1 exRow0 12 8 11 rfl
    (by decide) (by decide) rfl rfl rfl (by decide) (by decide) (by decide)

/-- C2: for every position i > 0 whose previous bar has H ≤ 0, L ≤ 0 or
C ≤ 0 (after the missing-value fill, so a missing field counts as 0),
`calculate_levels` leaves all nine levels at position i missing; the
division H/L is never performed there, and every level the function does
return is a finite rational (`Option ℚ` carries no NaN or infinity). -/
theorem nonpositive_prev_bar_levels_missing
    (df : List Row) (i : Nat) (prev : Row)
    (hprev : df[i - 1]? = some prev) (hi : 0 < i) (hlen : i < df.length)
    (hbad : prev.High.getD 0 ≤ 0 ∨ prev.Low.getD 0 ≤ 0 ∨ prev.Close.getD 0 ≤ 0) :
    ∃ out, calculate_levels df = .ok out ∧
      out[i]?.map LRow.levels =
        some ⟨none, none, none, none, none, none, none, none, none⟩ := by
  cases df with
  | nil => simp at hlen
  | cons r0 rest =>
    refine ⟨_, calculate_levels_cons r0 rest, ?_⟩
    have hi2 : i < ((r0 :: rest).map (coerceRow r0.Symbol)).length := by simpa using hlen
    rw [mainPass_getElem? _ i hi2]
    have hg : ((r0 :: rest).map (coerceRow r0.Symbol))[i - 1]? =
        some (coerceRow r0.Symbol prev) := by
      rw [List.getElem?_map, hprev]
      rfl
    have hv : ¬validPrev (coerceRow r0.Symbol prev) = true := by
      rcases hbad with hb | hb | hb <;> simp [validPrev, coerceRow, hb]
    simp only [Option.map_some']
    congr 1
    unfold mainLevels
    rw [if_neg (by omega), hg]
    simp only []
    rw [if_neg hv]
    rfl

/-- C2 (witness): the degenerate bar with Low = 0 yields a missing level
row at position 1. -/
theorem nonpositive_prev_bar_levels_missing_witness :
    ∃ out, calculate_levels [exRowBad, exRow1] = .ok out ∧
      out[1]?.map LRow.levels =
        some ⟨none, none, none, none, none, none, none, none, none⟩ :=
  nonpositive_prev_bar_levels_missing [exRowBad, exRow1] 1 exRowBad rfl
    (by decide) (by decide) (Or.inr (Or.inl (by decide)))

/-- C4 (counterexample): buckets with zero input bars are NOT omitted.
Resampling the two bars dated 2024-01-01 and 2024-01-03 daily yields
THREE output bars; the middle one, labelled 2024-01-02, corresponds to a
bucket containing no input bar and has every OHLC value (and symbol)
undefined. -/
theorem resample_emits_empty_bucket_bar :
    data_resampling ⟨2024, 1, 5⟩ exFrameGap "D" =
      .ok (exFrameGap,
        [⟨jan1, some 10, some 12, some 8, some 11, some "ACME"⟩,
         ⟨jan2, none, none, none, none, none⟩,
         ⟨jan3, some 11, some 13, some 9, some 12, some "ACME"⟩]) := by
  decide

/-- When the series is non-empty, `resampleCore` is the bin-label map. -/
theorem resampleCore_eq (ds : List Date) (rows : List Row) (p : String) (t0 t1 : Date)
    (h0 : minDate ((ds.zip rows).map Prod.fst) = some t0)
    (h1 : maxDate ((ds.zip rows).map Prod.fst) = some t1) :
    resampleCore ds rows p =
      (binLabels p (bucketOf p t0) (bucketOf p t1)).map
        (fun label => aggBin (groupBin p (ds.zip rows) label) label) := by
  simp only [resampleCore]
  rw [h0, h1]

/-- C4 (amended): for every valid period code and every dated series, the
output of the resampler has one bar per period bucket from the bucket of
the earliest timestamp to the bucket of the latest (so empty buckets are
included, not omitted), and every output bar whose bucket contains no
input bar has all four OHLC values undefined/missing. -/
theorem resample_includes_empty_buckets
    (now : Date) (ds : List Date) (rows : List Row) (p : String)
    (hp : p ∈ valid_periods) (t0 t1 : Date)
    (h0 : minDate ((ds.zip rows).map Prod.fst) = some t0)
    (h1 : maxDate ((ds.zip rows).map Prod.fst) = some t1) :
    ∃ out : List RBar,
      data_resampling now ⟨some ds, rows⟩ p = .ok (⟨some ds, rows⟩, out) ∧
      out.length = numBins p (bucketOf p t0) (bucketOf p t1) ∧
      ∀ (i : Nat) (b : RBar), out[i]? = some b →
        (∀ pr ∈ ds.zip rows, bucketOf p pr.1 ≠ b.date) →
        b.Open = none ∧ b.High = none ∧ b.Low = none ∧ b.Close = none := by
  have hcore := resampleCore_eq ds rows p t0 t1 h0 h1
  refine ⟨resampleCore ds rows p, ?_, ?_, ?_⟩
  · unfold data_resampling
    simp [hp]
  · rw [hcore]
    simp [binLabels]
  · intro i b hb hemp
    rw [hcore, List.getElem?_map] at hb
    cases hl : (binLabels p (bucketOf p t0) (bucketOf p t1))[i]? with
    | none =>
      rw [hl] at hb
      simp at hb
    | some label =>
      rw [hl] at hb
      simp only [Option.map_some', Option.some.injEq] at hb
      have hdate : b.date = label := by
        rw [← hb]
        rfl
      have hgrp : groupBin p (ds.zip rows) label = [] := by
        unfold groupBin
        have hf : List.filter (fun pr => decide (bucketOf p pr.1 = label)) (ds.zip rows) = [] := by
          apply List.filter_eq_nil_iff.mpr
          intro a ha
          have hne := hemp a ha
          rw [hdate] at hne
          simpa using hne
        rw [hf]
        rfl
      rw [← hb, hgrp]
      exact ⟨rfl, rfl, rfl, rfl⟩

/-- C4 (witness): the amended statement at the gapped daily series. -/
theorem resample_includes_empty_buckets_witness :
    ∃ out : List RBar,
      data_resampling ⟨2024, 1, 5⟩ ⟨some [jan1, jan3], [exRow0, exRow1]⟩ "D" =
        .ok (⟨some [jan1, jan3], [exRow0, exRow1]⟩, out) ∧
      out.length = numBins "D" (bucketOf "D" jan1) (bucketOf "D" jan3) ∧
      ∀ (i : Nat) (b : RBar), out[i]? = some b →
        (∀ pr ∈ [jan1, jan3].zip [exRow0, exRow1], bucketOf "D" pr.1 ≠ b.date) →
        b.Open = none ∧ b.High = none ∧ b.Low = none ∧ b.Close = none :=
  resample_includes_empty_buckets ⟨2024, 1, 5⟩ [jan1, jan3] [exRow0, exRow1] "D"
    (by decide) jan1 jan3 (by decide) (by decide)

/-- C5: an invalid period code is rejected - `data_resampling` itself
fails with `InvalidPeriod`, and the endpoint builds
`HTTPException(400, "Invalid period. ...")` - but the blanket
`except Exception` of `analysis.py` lines 85-90 catches the endpoint's
own 400 and re-raises it as `HTTPException(503, "Analysis failed: ...")`:
the caller sees a SERVER error, not the client error the specification
promises. -/
theorem invalid_period_surfaced_as_server_error :
    get_technical_analysis ⟨2024, 1, 5⟩ "TCS" ⟨some [jan2], [exRow0]⟩ "X" =
        .error (503, "Analysis failed: 400: Invalid period. Must be one of: D, W, M, Q, Y") ∧
      data_resampling ⟨2024, 1, 5⟩ ⟨some [jan2], [exRow0]⟩ "X" =
        .error "InvalidPeriod" :=
  ⟨by decide, by decide⟩

/-- C7: for every valid period code, resampling an empty bar series
returns an empty series and does not fail. -/
theorem resample_empty_series
    (now : Date) (dts : Option (List Date)) (p : String) (hp : p ∈ valid_periods) :
    ∃ f2, data_resampling now ⟨dts, []⟩ p = .ok (f2, []) := by
  cases dts with
  | none =>
    refine ⟨⟨some [], []⟩, ?_⟩
    unfold data_resampling
    simp [hp, dummyDates, resampleCore, minDate]
  | some ds =>
    refine ⟨⟨some ds, []⟩, ?_⟩
    unfold data_resampling
    simp [hp, resampleCore, List.zip_nil_right, minDate]

/-- C7 (witness): the empty series resampled daily. -/
theorem resample_empty_series_witness :
    ∃ f2, data_resampling ⟨2024, 1, 5⟩ ⟨some [], []⟩ "D" = .ok (f2, []) :=
  resample_empty_series ⟨2024, 1, 5⟩ (some []) "D" (by decide)

/-- C8 (counterexample): the claim fails for bars without timestamps: the
dummy index is `pd.date_range(start := today, ...)`, so two invocations
on the same timestamp-less bar at different current dates return
different outputs. -/
theorem resample_depends_on_invocation_date :
    data_resampling jan1 ⟨none, [exRow0]⟩ "D" ≠
      data_resampling jan2 ⟨none, [exRow0]⟩ "D" := by
  decide

/-- C8 (amended): both transforms are pure functions of their arguments,
so repeated calls with identical input yield identical output PROVIDED
the bars carry timestamps: when the `Date` column is present the
resampler's output does not depend on the invocation date at all (and
`calculate_levels` takes no ambient state whatsoever). -/
theorem resample_deterministic_with_dates (now now2 : Date) (ds : List Date)
    (rows : List Row) (p : String) :
    data_resampling now ⟨some ds, rows⟩ p = data_resampling now2 ⟨some ds, rows⟩ p := rfl

/-- C9 (counterexample): `data_resampling` modifies its input: on a frame
with no `Date` column, line 25 of the source assigns the dummy datetime
index to the caller's frame, so after the call the input frame has
timestamps it did not have before. -/
theorem resample_mutates_dateless_input :
    (data_resampling jan1 ⟨none, [exRow0]⟩ "D").toOption.map Prod.fst ≠
      some (⟨none, [exRow0]⟩ : Frame) := by
  decide

/-- C9 (amended): `calculate_levels` works on a copy and leaves its input
unchanged, and `data_resampling` never changes the OHLC/symbol fields of
the input bars; moreover when the input already carries timestamps the
input frame is left entirely unchanged.  Only a frame without timestamps
is mutated (it receives the dummy index, as the counterexample shows). -/
theorem resample_preserves_row_data (now : Date) (df : Frame) (p : String)
    (f2 : Frame) (out : List RBar)
    (h : data_resampling now df p = .ok (f2, out)) :
    f2.rows = df.rows ∧ (df.dates.isSome = true → f2 = df) := by
  obtain ⟨dts, rows⟩ := df
  by_cases hp : p ∈ valid_periods
  · cases dts with
    | some ds =>
      simp [data_resampling, hp] at h
      obtain ⟨rfl, rfl⟩ := h
      exact ⟨rfl, fun _ => rfl⟩
    | none =>
      simp [data_resampling, hp] at h
      obtain ⟨rfl, rfl⟩ := h
      refine ⟨rfl, fun hds => ?_⟩
      simp at hds
  · simp [data_resampling, hp] at h

/-- C9 (witness): the amended statement at a dated one-bar frame. -/
theorem resample_preserves_row_data_witness :
    (⟨some [jan2], [exRow0]⟩ : Frame).rows = (⟨some [jan2], [exRow0]⟩ : Frame).rows ∧
      ((⟨some [jan2], [exRow0]⟩ : Frame).dates.isSome = true →
        (⟨some [jan2], [exRow0]⟩ : Frame) = ⟨some [jan2], [exRow0]⟩) :=
  resample_preserves_row_data ⟨2024, 1, 5⟩ ⟨some [jan2], [exRow0]⟩ "D"
    ⟨some [jan2], [exRow0]⟩
    [⟨jan2, some 10, some 12, some 8, some 11, some "ACME"⟩] (by decide)

end StockTA
